import Mathlib

/-!
Shallow embedding of the grid-based A* PCB router
(`kicad/autorouter/rust_router/src/lib.rs`).

Modelling conventions:
* `i32` values are modelled as `Int`; `u32`/`usize`/`u8` as `Nat`.
* Rust `FxHashSet<u64>` is modelled as `List Nat` with `List.contains`
  membership; `FxHashMap<u64, T>` as `List (Nat × T)` where insertion conses
  a new binding (shadowing any older one, which matches HashMap overwrite
  for `List.lookup`).
* `BinaryHeap<OpenEntry>` pops the entry maximal under the source's reversed
  `Ord` (`other.f_score.cmp(&self.f_score).then_with(|| other.counter.cmp
  (&self.counter))`), i.e. the entry with the lexicographically least
  `(f_score, counter)`.  Counters are unique across pushes, so that entry is
  unique and the heap is modelled as a `List` with a deterministic `popMin`.
* The `f32` computation `(min_h as f32 * self.h_weight) as i32` in the
  heuristics is modelled by an abstract function `hmul : Int → Int` supplied
  where the source supplies `h_weight`.  For `h_weight = 1.0` and arguments
  below `2^24` (all runs considered here) the source computes the identity,
  so those theorems instantiate `hmul := fun x => x`.
* Rust loops become fuel recursion; fuel amounts are chosen so that fuel
  cannot run out on the executions the theorems talk about.
-/

/-- `ORTHO_COST` from the source. -/
def ORTHO_COST : Int := 1000

/-- `DIAG_COST` from the source. -/
def DIAG_COST : Int := 1414

/-- `i32::MAX`, the default taken by `g_costs.get(..).unwrap_or(i32::MAX)`. -/
def I32_MAX : Int := 2147483647

/-- The 8 octilinear directions, in the fixed source order
E, NE, N, NW, W, SW, S, SE. -/
def DIRECTIONS : List (Int × Int) :=
  [(1, 0), (1, -1), (0, -1), (-1, -1), (-1, 0), (-1, 1), (0, 1), (1, 1)]

/-- `GridState`: an (x, y, layer) search state.  `layer` is a `u8` in the
source, so every state the code builds has `layer < 256`. -/
structure GridState where
  gx : Int
  gy : Int
  layer : Nat
deriving DecidableEq, Repr

/-- `GridState::as_key`: pack into a u64 as `(x << 28) | (y << 8) | l` where
`x = (gx as u64) & 0xFFFFF` and `y = (gy as u64) & 0xFFFFF`.  Masking a
two's-complement value with `0xFFFFF` is `% 2^20` (Euclidean mod); the three fields occupy
disjoint bit ranges (`x`: bits 28-47, `y`: bits 8-27, `l`: bits 0-7, using
`layer < 256` from `u8`), so the bit-or is ordinary addition. -/
def GridState.as_key (s : GridState) : Nat :=
  (s.gx % 1048576).toNat * 268435456 + (s.gy % 1048576).toNat * 256 + s.layer

/-- `pack_xy`: `((gx as u64 & 0xFFFFFFFF) << 32) | (gy as u64 & 0xFFFFFFFF)`,
again a disjoint-field bit-or written as addition. -/
def pack_xy (gx gy : Int) : Nat :=
  (gx % 4294967296).toNat * 4294967296 + (gy % 4294967296).toNat

/-- Key unpacking as done in `GridRouter::reconstruct_path` (and verbatim in
`VisualRouter::reconstruct_path`): `layer = key & 0xFF`,
`y = (key >> 8) & 0xFFFFF`, `x = (key >> 28) & 0xFFFFF`, then sign-extension
`x | !0xFFFFF_i32` when bit 19 is set, which maps a 20-bit field `x < 2^20`
to `x - 2^20`. -/
def unpackCell (key : Nat) : Int × Int × Nat :=
  let layer := key % 256
  let y20 := key / 256 % 1048576
  let x20 := key / 268435456 % 1048576
  let x : Int := if 524288 ≤ x20 then (x20 : Int) - 1048576 else (x20 : Int)
  let y : Int := if 524288 ≤ y20 then (y20 : Int) - 1048576 else (y20 : Int)
  (x, y, layer)

/-- `GridObstacleMap`.  BGA zones are `(min_gx, min_gy, max_gx, max_gy)`. -/
structure GridObstacleMap where
  blocked_cells : List (List Nat)
  blocked_vias : List Nat
  stub_proximity : List (Nat × Int)
  num_layers : Nat
  bga_zones : List (Int × Int × Int × Int)
  allowed_cells : List Nat
  source_target_cells : List (List Nat)

/-- `GridObstacleMap::new`. -/
def GridObstacleMap.new (num_layers : Nat) : GridObstacleMap where
  blocked_cells := List.replicate num_layers []
  blocked_vias := []
  stub_proximity := []
  num_layers := num_layers
  bga_zones := []
  allowed_cells := []
  source_target_cells := List.replicate num_layers []

/-- Insert a key into the `i`-th per-layer set (`self.xs[i].insert(key)`). -/
def insertAtLayer (ls : List (List Nat)) (i : Nat) (key : Nat) : List (List Nat) :=
  ls.set i (key :: ls.getD i [])

/-- `GridObstacleMap::add_source_target_cell` (no-op when `layer` is out of
range). -/
def GridObstacleMap.add_source_target_cell (m : GridObstacleMap)
    (gx gy : Int) (layer : Nat) : GridObstacleMap :=
  if layer < m.num_layers then
    { m with source_target_cells := insertAtLayer m.source_target_cells layer (pack_xy gx gy) }
  else m

/-- `GridObstacleMap::clear_source_target_cells`. -/
def GridObstacleMap.clear_source_target_cells (m : GridObstacleMap) : GridObstacleMap :=
  { m with source_target_cells := m.source_target_cells.map (fun _ => []) }

/-- `GridObstacleMap::clear_stub_proximity`. -/
def GridObstacleMap.clear_stub_proximity (m : GridObstacleMap) : GridObstacleMap :=
  { m with stub_proximity := [] }

/-- `GridObstacleMap::clear_allowed_cells`. -/
def GridObstacleMap.clear_allowed_cells (m : GridObstacleMap) : GridObstacleMap :=
  { m with allowed_cells := [] }

/-- `GridObstacleMap::add_allowed_cell`. -/
def GridObstacleMap.add_allowed_cell (m : GridObstacleMap) (gx gy : Int) : GridObstacleMap :=
  { m with allowed_cells := pack_xy gx gy :: m.allowed_cells }

/-- `GridObstacleMap::set_bga_zone` (zones accumulate; `Vec::push`). -/
def GridObstacleMap.set_bga_zone (m : GridObstacleMap)
    (min_gx min_gy max_gx max_gy : Int) : GridObstacleMap :=
  { m with bga_zones := m.bga_zones ++ [(min_gx, min_gy, max_gx, max_gy)] }

/-- `GridObstacleMap::add_blocked_cell` (no-op when `layer` is out of range). -/
def GridObstacleMap.add_blocked_cell (m : GridObstacleMap)
    (gx gy : Int) (layer : Nat) : GridObstacleMap :=
  if layer < m.num_layers then
    { m with blocked_cells := insertAtLayer m.blocked_cells layer (pack_xy gx gy) }
  else m

/-- `GridObstacleMap::add_blocked_via`. -/
def GridObstacleMap.add_blocked_via (m : GridObstacleMap) (gx gy : Int) : GridObstacleMap :=
  { m with blocked_vias := pack_xy gx gy :: m.blocked_vias }

/-- `GridObstacleMap::set_stub_proximity`: monotone-max update
(`if cost > existing { insert }` with `existing` defaulting to 0). -/
def GridObstacleMap.set_stub_proximity (m : GridObstacleMap)
    (gx gy : Int) (cost : Int) : GridObstacleMap :=
  let key := pack_xy gx gy
  let existing := (m.stub_proximity.lookup key).getD 0
  if existing < cost then
    { m with stub_proximity := (key, cost) :: m.stub_proximity }
  else m

/-- The `in_bga_zone` test inside `is_blocked`:
`bga_zones.iter().any(|z| gx >= min_gx && gx <= max_gx && gy >= min_gy && gy <= max_gy)`. -/
def GridObstacleMap.in_bga_zone (m : GridObstacleMap) (gx gy : Int) : Bool :=
  m.bga_zones.any (fun z =>
    decide (z.1 ≤ gx) && decide (gx ≤ z.2.2.1) && decide (z.2.1 ≤ gy) && decide (gy ≤ z.2.2.2))

/-- `GridObstacleMap::is_blocked`.  Layer out of range → blocked; a hard
block is overridden only by `source_target_cells`; a BGA zone is overridden
only by `allowed_cells`; otherwise free. -/
def GridObstacleMap.is_blocked (m : GridObstacleMap) (gx gy : Int) (layer : Nat) : Bool :=
  if m.num_layers ≤ layer then true
  else
    let key := pack_xy gx gy
    let in_blocked_cells := (m.blocked_cells.getD layer []).contains key
    if in_blocked_cells then
      if (m.source_target_cells.getD layer []).contains key then false else true
    else if m.in_bga_zone gx gy then
      if m.allowed_cells.contains key then false else true
    else false

/-- `GridObstacleMap::is_via_blocked`.  The source iterates the zones and
returns for the first containing zone; the returned value does not depend on
which zone matched, so `List.find?` is an exact model of the early return. -/
def GridObstacleMap.is_via_blocked (m : GridObstacleMap) (gx gy : Int) : Bool :=
  if m.blocked_vias.contains (pack_xy gx gy) then true
  else
    match m.bga_zones.find? (fun z =>
        decide (z.1 ≤ gx) && decide (gx ≤ z.2.2.1) && decide (z.2.1 ≤ gy) && decide (gy ≤ z.2.2.2)) with
    | some _ => !(m.allowed_cells.contains (pack_xy gx gy))
    | none => false

/-- `GridObstacleMap::get_stub_proximity_cost`. -/
def GridObstacleMap.get_stub_proximity_cost (m : GridObstacleMap) (gx gy : Int) : Int :=
  (m.stub_proximity.lookup (pack_xy gx gy)).getD 0

/-- `OpenEntry`: an A* open-set entry. -/
structure OpenEntry where
  f_score : Int
  g_score : Int
  state : GridState
  counter : Nat
deriving DecidableEq, Repr

/-- Heap priority: `OpenEntry`s compare by `(f_score, counter)` ascending
(the source reverses both comparisons to turn `BinaryHeap` into a min-heap). -/
def OpenEntry.le (a b : OpenEntry) : Bool :=
  if a.f_score < b.f_score then true
  else if b.f_score < a.f_score then false
  else decide (a.counter ≤ b.counter)

/-- `BinaryHeap::pop` model: remove the entry with the least
`(f_score, counter)`.  Counters are unique across pushes, so this entry is
unique and the model is exact. -/
def popMin : List OpenEntry → Option (OpenEntry × List OpenEntry)
  | [] => none
  | e :: rest =>
    match popMin rest with
    | none => some (e, [])
    | some (m, rest2) => if e.le m then some (e, rest) else some (m, e :: rest2)

/-- `heuristic_to_targets`, shared verbatim by `GridRouter` and
`VisualRouter` in the source: octile distance to the nearest target plus
`via_cost` on a layer mismatch, starting from `min_h = i32::MAX`; the final
`(min_h as f32 * h_weight) as i32` is the abstract `hmul`. -/
def heuristic_to_targets (via_cost : Int) (hmul : Int → Int)
    (state : GridState) (targets : List GridState) : Int :=
  hmul (targets.foldl (fun min_h target =>
    let dx := ((state.gx - target.gx).natAbs : Int)
    let dy := ((state.gy - target.gy).natAbs : Int)
    let diag := min dx dy
    let orth := ((dx - dy).natAbs : Int)
    let h := diag * DIAG_COST + orth * ORTHO_COST
    let h := if state.layer ≠ target.layer then h + via_cost else h
    min min_h h) I32_MAX)

/-- The mutable A* search state shared by `GridRouter::route_multi` (as
locals) and `VisualRouter` (as fields). -/
structure SearchSt where
  open_set : List OpenEntry
  g_costs : List (Nat × Int)
  parents : List (Nat × Nat)
  closed : List Nat
  counter : Nat
  iterations : Nat
deriving Repr

/-- The empty search state. -/
def emptySearch : SearchSt :=
  { open_set := [], g_costs := [], parents := [], closed := [], counter := 0, iterations := 0 }

/-- Source initialisation, duplicated verbatim in `GridRouter::route_multi`
and `VisualRouter::init`: push every source with `g = 0` and `f = h`, record
`g_costs[key] = 0`. -/
def init_sources (via_cost : Int) (hmul : Int → Int) (target_states : List GridState)
    (sources : List GridState) (st : SearchSt) : SearchSt :=
  sources.foldl (fun st s =>
    let key := s.as_key
    let h := heuristic_to_targets via_cost hmul s target_states
    { st with
      open_set := ⟨h, 0, s, st.counter⟩ :: st.open_set,
      counter := st.counter + 1,
      g_costs := (key, 0) :: st.g_costs }) st

/-- The 8-direction planar expansion block, duplicated verbatim in
`GridRouter::route_multi` and `VisualRouter::step`. -/
def expand_planar (via_cost : Int) (hmul : Int → Int) (obstacles : GridObstacleMap)
    (target_states : List GridState) (current : GridState) (g : Int)
    (st : SearchSt) : SearchSt :=
  DIRECTIONS.foldl (fun st d =>
    let ngx := current.gx + d.1
    let ngy := current.gy + d.2
    if obstacles.is_blocked ngx ngy current.layer then st
    else
      let neighbor : GridState := ⟨ngx, ngy, current.layer⟩
      let neighbor_key := neighbor.as_key
      if st.closed.contains neighbor_key then st
      else
        let move_cost := if d.1 ≠ 0 ∧ d.2 ≠ 0 then DIAG_COST else ORTHO_COST
        let proximity_cost := obstacles.get_stub_proximity_cost ngx ngy
        let new_g := g + move_cost + proximity_cost
        let existing_g := (st.g_costs.lookup neighbor_key).getD I32_MAX
        if new_g < existing_g then
          { st with
            g_costs := (neighbor_key, new_g) :: st.g_costs,
            parents := (neighbor_key, current.as_key) :: st.parents,
            open_set :=
              ⟨new_g + heuristic_to_targets via_cost hmul neighbor target_states,
               new_g, neighbor, st.counter⟩ :: st.open_set,
            counter := st.counter + 1 }
        else st) st

/-- The via expansion block, duplicated verbatim in `GridRouter::route_multi`
and `VisualRouter::step`.  The source iterates
`for layer in 0..obstacles.num_layers as u8`, and `usize as u8` truncates
mod 256. -/
def expand_vias (via_cost : Int) (hmul : Int → Int) (obstacles : GridObstacleMap)
    (target_states : List GridState) (current : GridState) (g : Int)
    (st : SearchSt) : SearchSt :=
  if obstacles.is_via_blocked current.gx current.gy then st
  else
    (List.range (obstacles.num_layers % 256)).foldl (fun st layer =>
      if layer = current.layer then st
      else if obstacles.is_blocked current.gx current.gy layer then st
      else
        let neighbor : GridState := ⟨current.gx, current.gy, layer⟩
        let neighbor_key := neighbor.as_key
        if st.closed.contains neighbor_key then st
        else
          let proximity_cost := obstacles.get_stub_proximity_cost current.gx current.gy * 2
          let new_g := g + via_cost + proximity_cost
          let existing_g := (st.g_costs.lookup neighbor_key).getD I32_MAX
          if new_g < existing_g then
            { st with
              g_costs := (neighbor_key, new_g) :: st.g_costs,
              parents := (neighbor_key, current.as_key) :: st.parents,
              open_set :=
                ⟨new_g + heuristic_to_targets via_cost hmul neighbor target_states,
                 new_g, neighbor, st.counter⟩ :: st.open_set,
              counter := st.counter + 1 }
          else st) st

/-- The parent walk of `reconstruct_path`, with fuel.  A chain that never
revisits a key (always the case for the parent maps A* builds, where the
parent of a key was closed strictly before it) visits at most
`parents.length + 1` keys, so the fuel used in `reconstruct_path` below never
runs out on such maps. -/
def parentChain (parents : List (Nat × Nat)) : Nat → Nat → List (Int × Int × Nat)
  | 0, _ => []
  | fuel + 1, key =>
    unpackCell key ::
      match parents.lookup key with
      | some parent_key => parentChain parents fuel parent_key
      | none => []

/-- `GridRouter::reconstruct_path` / `VisualRouter::reconstruct_path`: walk
the parent map from the goal, unpacking each key, then reverse.  (The Rust
`GridRouter` version also receives `g_costs` but never reads it.) -/
def reconstruct_path (parents : List (Nat × Nat)) (goal_key : Nat) :
    List (Int × Int × Nat) :=
  (parentChain parents (parents.length + 1) goal_key).reverse

/-- `GridRouter`: `via_cost` plus the `h_weight` multiplication modelled by
`hmul` (see the header comment). -/
structure GridRouter where
  via_cost : Int
  hmul : Int → Int

/-- The main loop of `GridRouter::route_multi`: pop, check the iteration
budget, skip closed entries, test for a target, expand.  Fuel decreases once
per loop pass; since every non-final pass increments `iterations` and the
pass after `iterations` reaches `max_iterations` returns, `max_iterations+1`
fuel (used by `route_multi`) never runs out. -/
def routeLoop (via_cost : Int) (hmul : Int → Int) (obstacles : GridObstacleMap)
    (target_set : List Nat) (target_states : List GridState) (max_iterations : Nat) :
    Nat → SearchSt → Option (List (Int × Int × Nat)) × Nat
  | 0, st => (none, st.iterations)
  | fuel + 1, st =>
    match popMin st.open_set with
    | none => (none, st.iterations)
    | some (current_entry, rest) =>
      if max_iterations ≤ st.iterations then (none, st.iterations)
      else
        let st := { st with open_set := rest, iterations := st.iterations + 1 }
        let current := current_entry.state
        let current_key := current.as_key
        if st.closed.contains current_key then
          routeLoop via_cost hmul obstacles target_set target_states max_iterations fuel st
        else
          let st := { st with closed := current_key :: st.closed }
          if target_set.contains current_key then
            (some (reconstruct_path st.parents current_key), st.iterations)
          else
            routeLoop via_cost hmul obstacles target_set target_states max_iterations fuel
              (expand_vias via_cost hmul obstacles target_states current current_entry.g_score
                (expand_planar via_cost hmul obstacles target_states current
                  current_entry.g_score st))

/-- `GridRouter::route_multi`. -/
def GridRouter.route_multi (r : GridRouter) (obstacles : GridObstacleMap)
    (sources targets : List GridState) (max_iterations : Nat) :
    Option (List (Int × Int × Nat)) × Nat :=
  let target_set := targets.map GridState.as_key
  let st := init_sources r.via_cost r.hmul targets sources emptySearch
  routeLoop r.via_cost r.hmul obstacles target_set targets max_iterations
    (max_iterations + 1) st

/-- `VisualRouter`: the same search exposed as a resumable state machine.
The visualization snapshot (`SearchSnapshot`) only samples this state and is
not modelled. -/
structure VisualRouter where
  via_cost : Int
  hmul : Int → Int
  search : SearchSt
  max_iterations : Nat
  target_set : List Nat
  target_states : List GridState
  found : Bool
  final_path : Option (List (Int × Int × Nat))

/-- `VisualRouter::new`. -/
def VisualRouter.new (via_cost : Int) (hmul : Int → Int) : VisualRouter :=
  { via_cost := via_cost, hmul := hmul, search := emptySearch, max_iterations := 0,
    target_set := [], target_states := [], found := false, final_path := none }

/-- `VisualRouter::init`: reset all search state, set up targets, push the
sources. -/
def VisualRouter.init (r : VisualRouter) (sources targets : List GridState)
    (max_iterations : Nat) : VisualRouter :=
  { r with
    search := init_sources r.via_cost r.hmul targets sources emptySearch,
    max_iterations := max_iterations,
    target_set := targets.map GridState.as_key,
    target_states := targets,
    found := false,
    final_path := none }

/-- `VisualRouter::is_done`. -/
def VisualRouter.is_done (r : VisualRouter) : Bool :=
  r.found || r.search.open_set.isEmpty || decide (r.max_iterations ≤ r.search.iterations)

/-- One pass of the `for` loop in `VisualRouter::step`: break when done,
else increment `iterations`, pop, and process exactly as `route_multi` does.
(The `None => break` arm of the pop is unreachable because emptiness was just
checked, but it is modelled faithfully.) -/
def VisualRouter.stepOnce (obstacles : GridObstacleMap) (r : VisualRouter) : VisualRouter :=
  if r.is_done then r
  else
    let st0 := { r.search with iterations := r.search.iterations + 1 }
    match popMin st0.open_set with
    | none => { r with search := st0 }
    | some (current_entry, rest) =>
      let st1 := { st0 with open_set := rest }
      let current := current_entry.state
      let current_key := current.as_key
      if st1.closed.contains current_key then { r with search := st1 }
      else
        let st2 := { st1 with closed := current_key :: st1.closed }
        if r.target_set.contains current_key then
          { r with
            search := st2, found := true,
            final_path := some (reconstruct_path st2.parents current_key) }
        else
          { r with
            search :=
              expand_vias r.via_cost r.hmul obstacles r.target_states current
                current_entry.g_score
                (expand_planar r.via_cost r.hmul obstacles r.target_states current
                  current_entry.g_score st2) }

/-- `VisualRouter::step`: run up to `num_iterations` loop passes (each pass
re-checks the break condition via `stepOnce`).  The returned snapshot is not
modelled; the evolved router state is returned instead. -/
def VisualRouter.step (obstacles : GridObstacleMap) :
    Nat → VisualRouter → VisualRouter
  | 0, r => r
  | n + 1, r => VisualRouter.step obstacles n (r.stepOnce obstacles)

/-- `VisualRouter::get_path`. -/
def VisualRouter.get_path (r : VisualRouter) : Option (List (Int × Int × Nat)) :=
  r.final_path

/-- `VisualRouter::get_iterations`. -/
def VisualRouter.get_iterations (r : VisualRouter) : Nat :=
  r.search.iterations

/-- Drive a `VisualRouter` to completion: call `step obstacles 1` until
`is_done`, with fuel.  `max_iterations + 1` fuel always reaches `is_done`. -/
def driveToCompletion (obstacles : GridObstacleMap) :
    Nat → VisualRouter → VisualRouter
  | 0, r => r
  | fuel + 1, r =>
    if r.is_done then r
    else driveToCompletion obstacles fuel (VisualRouter.step obstacles 1 r)

/-- The accumulated g-cost of a path, as the search computes it step by
step: a planar step costs `DIAG_COST`/`ORTHO_COST` plus the proximity cost of
the entered cell; a layer change costs `via_cost` plus twice the proximity
cost of the (unchanged) xy position. -/
def pathGCost (obstacles : GridObstacleMap) (via_cost : Int) :
    List (Int × Int × Nat) → Int
  | a :: b :: rest =>
    (if a.2.2 = b.2.2 then
      (if a.1 ≠ b.1 ∧ a.2.1 ≠ b.2.1 then DIAG_COST else ORTHO_COST)
        + obstacles.get_stub_proximity_cost b.1 b.2.1
    else via_cost + obstacles.get_stub_proximity_cost a.1 a.2.1 * 2)
      + pathGCost obstacles via_cost (b :: rest)
  | _ => 0

/-- `DiffPairState`: pair centre, layer and orientation (0 = P above/N
below, 1 = P right/N left, 2 = P at NE, 3 = P at NW). -/
structure DiffPairState where
  gx : Int
  gy : Int
  layer : Nat
  orientation : Nat
deriving DecidableEq, Repr

/-- `DiffPairState::as_key`: `(x << 28) | (y << 10) | (l << 2) | o` with x, y
masked to 18 bits; fields are disjoint (using `layer < 256` from `u8` and
`orientation < 4`, which holds for every state the router constructs), so the
bit-or is addition. -/
def DiffPairState.as_key (s : DiffPairState) : Nat :=
  (s.gx % 262144).toNat * 268435456 + (s.gy % 262144).toNat * 1024 +
    s.layer * 4 + s.orientation

/-- `DiffPairState::p_pos`. -/
def DiffPairState.p_pos (s : DiffPairState) (half_spacing : Int) : Int × Int :=
  match s.orientation with
  | 0 => (s.gx, s.gy + half_spacing)
  | 1 => (s.gx + half_spacing, s.gy)
  | 2 => (s.gx + half_spacing, s.gy + half_spacing)
  | 3 => (s.gx - half_spacing, s.gy + half_spacing)
  | _ => (s.gx, s.gy + half_spacing)

/-- `DiffPairState::n_pos`. -/
def DiffPairState.n_pos (s : DiffPairState) (half_spacing : Int) : Int × Int :=
  match s.orientation with
  | 0 => (s.gx, s.gy - half_spacing)
  | 1 => (s.gx - half_spacing, s.gy)
  | 2 => (s.gx - half_spacing, s.gy - half_spacing)
  | 3 => (s.gx + half_spacing, s.gy - half_spacing)
  | _ => (s.gx, s.gy - half_spacing)

/-- `DiffPairOpenEntry`. -/
structure DiffPairOpenEntry where
  f_score : Int
  g_score : Int
  state : DiffPairState
  counter : Nat
deriving DecidableEq, Repr

/-- Heap priority for diff-pair entries, same reversed ordering as
`OpenEntry`. -/
def DiffPairOpenEntry.le (a b : DiffPairOpenEntry) : Bool :=
  if a.f_score < b.f_score then true
  else if b.f_score < a.f_score then false
  else decide (a.counter ≤ b.counter)

/-- `BinaryHeap::pop` model for diff-pair entries. -/
def diffPopMin : List DiffPairOpenEntry → Option (DiffPairOpenEntry × List DiffPairOpenEntry)
  | [] => none
  | e :: rest =>
    match diffPopMin rest with
    | none => some (e, [])
    | some (m, rest2) => if e.le m then some (e, rest) else some (m, e :: rest2)

/-- Search state of the diff-pair A* loop. -/
structure DiffSearchSt where
  open_set : List DiffPairOpenEntry
  g_costs : List (Nat × Int)
  parents : List (Nat × Nat)
  closed : List Nat
  counter : Nat
  iterations : Nat
deriving Repr

/-- `DiffPairRouter`. -/
structure DiffPairRouter where
  via_cost : Int
  hmul : Int → Int
  half_spacing : Int

/-- `DiffPairRouter::get_valid_orientations`: candidate orientations, in
order, for a move direction (the `match (dx, dy)` of the source written as an
if-chain; `&self` and the fall-through arm are kept as in the source). -/
def DiffPairRouter.get_valid_orientations (dx dy : Int) (current_orientation : Nat) :
    List Nat :=
  if (dx = 1 ∧ dy = 0) ∨ (dx = -1 ∧ dy = 0) then [0, 2, 3]
  else if (dx = 0 ∧ dy = 1) ∨ (dx = 0 ∧ dy = -1) then [1, 2, 3]
  else if (dx = 1 ∧ dy = 1) ∨ (dx = -1 ∧ dy = -1) then [3, 0, 1]
  else if (dx = 1 ∧ dy = -1) ∨ (dx = -1 ∧ dy = 1) then [2, 0, 1]
  else [current_orientation]

/-- `DiffPairRouter::heuristic_to_targets`: octile distance with a
`2 * via_cost` layer-mismatch penalty. -/
def DiffPairRouter.heuristic_to_targets (via_cost : Int) (hmul : Int → Int)
    (state : DiffPairState) (targets : List DiffPairState) : Int :=
  hmul (targets.foldl (fun min_h target =>
    let dx := ((state.gx - target.gx).natAbs : Int)
    let dy := ((state.gy - target.gy).natAbs : Int)
    let diag := min dx dy
    let orth := ((dx - dy).natAbs : Int)
    let h := diag * DIAG_COST + orth * ORTHO_COST
    let h := if state.layer ≠ target.layer then h + via_cost * 2 else h
    min min_h h) I32_MAX)

/-- Key unpacking in `DiffPairRouter::reconstruct_diff_pair_path`:
`o = key & 0x3`, `l = (key >> 2) & 0xFF`, `y = (key >> 10) & 0x3FFFF`,
`x = (key >> 28) & 0x3FFFF`, sign-extending the 18-bit fields. -/
def diffUnpack (key : Nat) : DiffPairState :=
  let o := key % 4
  let l := key / 4 % 256
  let y18 := key / 1024 % 262144
  let x18 := key / 268435456 % 262144
  let x : Int := if 131072 ≤ x18 then (x18 : Int) - 262144 else (x18 : Int)
  let y : Int := if 131072 ≤ y18 then (y18 : Int) - 262144 else (y18 : Int)
  ⟨x, y, l, o⟩

/-- Parent walk of `reconstruct_diff_pair_path`, projecting every state to
its P and N positions; fuel as in `parentChain`. -/
def diffParentChain (half_spacing : Int) (parents : List (Nat × Nat)) :
    Nat → Nat → List (Int × Int × Nat) × List (Int × Int × Nat)
  | 0, _ => ([], [])
  | fuel + 1, key =>
    let state := diffUnpack key
    let p := state.p_pos half_spacing
    let n := state.n_pos half_spacing
    let rest :=
      match parents.lookup key with
      | some parent_key => diffParentChain half_spacing parents fuel parent_key
      | none => ([], [])
    ((p.1, p.2, state.layer) :: rest.1, (n.1, n.2, state.layer) :: rest.2)

/-- `DiffPairRouter::reconstruct_diff_pair_path`. -/
def reconstruct_diff_pair_path (half_spacing : Int) (parents : List (Nat × Nat))
    (goal_key : Nat) : List (Int × Int × Nat) × List (Int × Int × Nat) :=
  let chains := diffParentChain half_spacing parents (parents.length + 1) goal_key
  (chains.1.reverse, chains.2.reverse)

/-- Endpoint conversion in `route_diff_pair`: centre by truncating i32
division, orientation 1 when the P-N vector is dominantly horizontal, else 0. -/
def diffEndpointState (t : Int × Int × Int × Int × Nat) : DiffPairState :=
  let center_gx := Int.tdiv (t.1 + t.2.2.1) 2
  let center_gy := Int.tdiv (t.2.1 + t.2.2.2.1) 2
  let dx := t.1 - t.2.2.1
  let dy := t.2.1 - t.2.2.2.1
  let orientation := if dy.natAbs < dx.natAbs then 1 else 0
  ⟨center_gx, center_gy, t.2.2.2.2, orientation⟩

/-- The planar expansion of the diff-pair loop: for each direction try the
candidate orientations in order, rejecting moves where either trace lands on
a blocked cell. -/
def diffExpandPlanar (via_cost : Int) (hmul : Int → Int) (half_spacing : Int)
    (obstacles : GridObstacleMap) (target_states : List DiffPairState)
    (current : DiffPairState) (g : Int) (st : DiffSearchSt) : DiffSearchSt :=
  DIRECTIONS.foldl (fun st d =>
    let new_gx := current.gx + d.1
    let new_gy := current.gy + d.2
    let new_orientations := DiffPairRouter.get_valid_orientations d.1 d.2 current.orientation
    new_orientations.foldl (fun st new_orientation =>
      let neighbor : DiffPairState := ⟨new_gx, new_gy, current.layer, new_orientation⟩
      let p := neighbor.p_pos half_spacing
      let n := neighbor.n_pos half_spacing
      if obstacles.is_blocked p.1 p.2 neighbor.layer ||
          obstacles.is_blocked n.1 n.2 neighbor.layer then st
      else
        let neighbor_key := neighbor.as_key
        if st.closed.contains neighbor_key then st
        else
          let move_cost := if d.1 ≠ 0 ∧ d.2 ≠ 0 then DIAG_COST else ORTHO_COST
          let orientation_cost : Int := if new_orientation ≠ current.orientation then 500 else 0
          let proximity_cost := obstacles.get_stub_proximity_cost p.1 p.2 +
            obstacles.get_stub_proximity_cost n.1 n.2
          let new_g := g + move_cost + orientation_cost + proximity_cost
          let existing_g := (st.g_costs.lookup neighbor_key).getD I32_MAX
          if new_g < existing_g then
            { st with
              g_costs := (neighbor_key, new_g) :: st.g_costs,
              parents := (neighbor_key, current.as_key) :: st.parents,
              open_set :=
                ⟨new_g + DiffPairRouter.heuristic_to_targets via_cost hmul neighbor target_states,
                 new_g, neighbor, st.counter⟩ :: st.open_set,
              counter := st.counter + 1 }
          else st) st) st

/-- The via expansion of the diff-pair loop: both traces must pass
`is_via_blocked` at the current xy and `is_blocked` on the destination layer;
cost `2 * via_cost` plus doubled proximity; orientation preserved. -/
def diffExpandVias (via_cost : Int) (hmul : Int → Int) (half_spacing : Int)
    (obstacles : GridObstacleMap) (target_states : List DiffPairState)
    (current : DiffPairState) (g : Int) (st : DiffSearchSt) : DiffSearchSt :=
  let p := current.p_pos half_spacing
  let n := current.n_pos half_spacing
  if !obstacles.is_via_blocked p.1 p.2 && !obstacles.is_via_blocked n.1 n.2 then
    (List.range (obstacles.num_layers % 256)).foldl (fun st layer =>
      if layer = current.layer then st
      else if obstacles.is_blocked p.1 p.2 layer || obstacles.is_blocked n.1 n.2 layer then st
      else
        let neighbor : DiffPairState := ⟨current.gx, current.gy, layer, current.orientation⟩
        let neighbor_key := neighbor.as_key
        if st.closed.contains neighbor_key then st
        else
          let proximity_cost := (obstacles.get_stub_proximity_cost p.1 p.2 +
            obstacles.get_stub_proximity_cost n.1 n.2) * 2
          let new_g := g + via_cost * 2 + proximity_cost
          let existing_g := (st.g_costs.lookup neighbor_key).getD I32_MAX
          if new_g < existing_g then
            { st with
              g_costs := (neighbor_key, new_g) :: st.g_costs,
              parents := (neighbor_key, current.as_key) :: st.parents,
              open_set :=
                ⟨new_g + DiffPairRouter.heuristic_to_targets via_cost hmul neighbor target_states,
                 new_g, neighbor, st.counter⟩ :: st.open_set,
              counter := st.counter + 1 }
          else st) st
  else st

/-- The main loop of `route_diff_pair`; goal test is proximity-based with
Chebyshev tolerance 5 on the matching layer. -/
def diffRouteLoop (via_cost : Int) (hmul : Int → Int) (half_spacing : Int)
    (obstacles : GridObstacleMap) (target_states : List DiffPairState)
    (max_iterations : Nat) :
    Nat → DiffSearchSt →
      Option (List (Int × Int × Nat)) × Option (List (Int × Int × Nat)) × Nat
  | 0, st => (none, none, st.iterations)
  | fuel + 1, st =>
    match diffPopMin st.open_set with
    | none => (none, none, st.iterations)
    | some (current_entry, rest) =>
      if max_iterations ≤ st.iterations then (none, none, st.iterations)
      else
        let st := { st with open_set := rest, iterations := st.iterations + 1 }
        let current := current_entry.state
        let current_key := current.as_key
        if st.closed.contains current_key then
          diffRouteLoop via_cost hmul half_spacing obstacles target_states max_iterations fuel st
        else
          let st := { st with closed := current_key :: st.closed }
          let reached_target := target_states.any (fun target =>
            current.layer == target.layer &&
              decide ((current.gx - target.gx).natAbs ≤ 5) &&
              decide ((current.gy - target.gy).natAbs ≤ 5))
          if reached_target then
            let paths := reconstruct_diff_pair_path half_spacing st.parents current_key
            (some paths.1, some paths.2, st.iterations)
          else
            diffRouteLoop via_cost hmul half_spacing obstacles target_states max_iterations fuel
              (diffExpandVias via_cost hmul half_spacing obstacles target_states current
                current_entry.g_score
                (diffExpandPlanar via_cost hmul half_spacing obstacles target_states current
                  current_entry.g_score st))

/-- `DiffPairRouter::route_diff_pair`.  Sources and targets are
`(p_gx, p_gy, n_gx, n_gy, layer)` tuples; the source converts them with a
`filter_map` whose closure always returns `Some`. -/
def DiffPairRouter.route_diff_pair (r : DiffPairRouter) (obstacles : GridObstacleMap)
    (sources targets : List (Int × Int × Int × Int × Nat)) (max_iterations : Nat) :
    Option (List (Int × Int × Nat)) × Option (List (Int × Int × Nat)) × Nat :=
  let source_states := sources.filterMap (fun t => some (diffEndpointState t))
  let target_states := targets.filterMap (fun t => some (diffEndpointState t))
  if source_states.isEmpty || target_states.isEmpty then (none, none, 0)
  else
    let st := source_states.foldl (fun st state =>
      let key := state.as_key
      let h := DiffPairRouter.heuristic_to_targets r.via_cost r.hmul state target_states
      { st with
        open_set := ⟨h, 0, state, st.counter⟩ :: st.open_set,
        counter := st.counter + 1,
        g_costs := (key, 0) :: st.g_costs })
      ({ open_set := [], g_costs := [], parents := [], closed := [], counter := 0,
         iterations := 0 } : DiffSearchSt)
    diffRouteLoop r.via_cost r.hmul r.half_spacing obstacles target_states max_iterations
      (max_iterations + 1) st

/-- Obstacle maps reachable from `GridObstacleMap::new` through the public
mutation operations. -/
inductive Reachable : GridObstacleMap → Prop
  | new (n : Nat) : Reachable (GridObstacleMap.new n)
  | add_blocked_cell {m} (gx gy : Int) (layer : Nat) :
      Reachable m → Reachable (m.add_blocked_cell gx gy layer)
  | add_blocked_via {m} (gx gy : Int) :
      Reachable m → Reachable (m.add_blocked_via gx gy)
  | set_bga_zone {m} (a b c d : Int) :
      Reachable m → Reachable (m.set_bga_zone a b c d)
  | add_allowed_cell {m} (gx gy : Int) :
      Reachable m → Reachable (m.add_allowed_cell gx gy)
  | add_source_target_cell {m} (gx gy : Int) (layer : Nat) :
      Reachable m → Reachable (m.add_source_target_cell gx gy layer)
  | set_stub_proximity {m} (gx gy cost : Int) :
      Reachable m → Reachable (m.set_stub_proximity gx gy cost)
  | clear_stub_proximity {m} :
      Reachable m → Reachable m.clear_stub_proximity
  | clear_allowed_cells {m} :
      Reachable m → Reachable m.clear_allowed_cells
  | clear_source_target_cells {m} :
      Reachable m → Reachable m.clear_source_target_cells

/-- Open-set invariant used for the path/blocking theorem: every queued
entry has a `u8` layer and both coordinates within `n` of the origin (`n` is
instantiated with `bound + iterations` in the loop invariant). -/
def InvOpen (n : Nat) (l : List OpenEntry) : Prop :=
  ∀ e ∈ l, e.state.layer < 256 ∧ e.state.gx.natAbs ≤ n ∧ e.state.gy.natAbs ≤ n

/-- Parent-map invariant: every key in the parent map is the packing of an
in-range, unblocked state. -/
def InvPar (obstacles : GridObstacleMap) (parents : List (Nat × Nat)) : Prop :=
  ∀ pr ∈ parents, ∃ s : GridState, s.as_key = pr.1 ∧
    s.gx.natAbs ≤ 524287 ∧ s.gy.natAbs ≤ 524287 ∧ s.layer < 256 ∧
    obstacles.is_blocked s.gx s.gy s.layer = false

/-! ## Helper lemmas -/

/-- A successful `List.lookup` exhibits a member of the association list. -/
theorem lookup_mem {α : Type} :
    ∀ (l : List (Nat × α)) (k : Nat) (v : α), l.lookup k = some v → (k, v) ∈ l := by
  intro l
  induction l with
  | nil => intro k v h; simp [List.lookup] at h
  | cons p t ih =>
    intro k v h
    obtain ⟨k2, b⟩ := p
    rw [List.lookup_cons] at h
    by_cases hk : k = k2
    · subst hk
      simp at h
      subst h
      exact List.mem_cons_self _ _
    · have hbeq : (k == k2) = false := by simpa using hk
      rw [hbeq] at h
      exact List.mem_cons_of_mem _ (ih k v h)

/-- `popMin` returns `none` exactly on the empty list. -/
theorem popMin_eq_none {l : List OpenEntry} : popMin l = none ↔ l = [] := by
  cases l with
  | nil => simp [popMin]
  | cons e rest =>
    simp only [popMin]
    constructor
    · intro h
      rcases hm : popMin rest with _ | ⟨m, rest2⟩
      · rw [hm] at h; simp at h
      · rw [hm] at h
        dsimp only at h
        by_cases hle : e.le m = true
        · rw [if_pos hle] at h; simp at h
        · rw [if_neg hle] at h; simp at h
    · intro h; exact absurd h (by simp)

/-- The entry `popMin` returns, and every remaining entry, come from the
input list. -/
theorem popMin_mem : ∀ {l : List OpenEntry} {e : OpenEntry} {rest : List OpenEntry},
    popMin l = some (e, rest) → e ∈ l ∧ ∀ x ∈ rest, x ∈ l := by
  intro l
  induction l with
  | nil => intro e rest h; simp [popMin] at h
  | cons a t ih =>
    intro e rest h
    simp only [popMin] at h
    rcases hm : popMin t with _ | ⟨m, rest2⟩
    · rw [hm] at h
      dsimp only at h
      simp only [Option.some.injEq, Prod.mk.injEq] at h
      obtain ⟨he, hr⟩ := h
      subst he; subst hr
      exact ⟨List.mem_cons_self _ _, by simp⟩
    · rw [hm] at h
      dsimp only at h
      obtain ⟨hmem, hsub⟩ := ih hm
      by_cases hle : a.le m = true
      · rw [if_pos hle] at h
        simp only [Option.some.injEq, Prod.mk.injEq] at h
        obtain ⟨he, hr⟩ := h
        subst he; subst hr
        exact ⟨List.mem_cons_self _ _, fun x hx => List.mem_cons_of_mem _ hx⟩
      · rw [if_neg hle] at h
        simp only [Option.some.injEq, Prod.mk.injEq] at h
        obtain ⟨he, hr⟩ := h
        subst he; subst hr
        refine ⟨List.mem_cons_of_mem _ hmem, fun x hx => ?_⟩
        rcases List.mem_cons.mp hx with hx | hx
        · subst hx; exact List.mem_cons_self _ _
        · exact List.mem_cons_of_mem _ (hsub x hx)

/-- Packing then unpacking a cell key is the identity on the supported
range. -/
theorem unpack_as_key (gx gy : Int) (layer : Nat)
    (hx1 : -524288 ≤ gx) (hx2 : gx ≤ 524287)
    (hy1 : -524288 ≤ gy) (hy2 : gy ≤ 524287) (hl : layer < 256) :
    unpackCell (GridState.as_key ⟨gx, gy, layer⟩) = (gx, gy, layer) := by
  simp only [unpackCell, GridState.as_key, Prod.mk.injEq]
  set A := (gx % 1048576).toNat with hA
  set B := (gy % 1048576).toNat with hB
  have hAv : (A : Int) = gx % 1048576 := by omega
  have hBv : (B : Int) = gy % 1048576 := by omega
  have hAlt : A < 1048576 := by omega
  have hBlt : B < 1048576 := by omega
  have k1 : (A * 268435456 + B * 256 + layer) % 256 = layer := by omega
  have k2 : (A * 268435456 + B * 256 + layer) / 256 % 1048576 = B := by omega
  have k3 : (A * 268435456 + B * 256 + layer) / 268435456 % 1048576 = A := by omega
  rw [k1, k2, k3]
  refine ⟨?_, ?_, rfl⟩
  · split_ifs with h <;> omega
  · split_ifs with h <;> omega

/-- Reading the proximity cost after a `set_stub_proximity` on the same cell
gives the max of the old stored cost and the new one. -/
theorem get_set_stub (m : GridObstacleMap) (gx gy c : Int) :
    (m.set_stub_proximity gx gy c).get_stub_proximity_cost gx gy
      = max (m.get_stub_proximity_cost gx gy) c := by
  simp only [GridObstacleMap.set_stub_proximity, GridObstacleMap.get_stub_proximity_cost]
  split_ifs with h
  · simp only [List.lookup_cons_self, Option.getD_some]
    omega
  · omega

/-- On a fresh map every proximity cost is 0. -/
theorem get_stub_new (n : Nat) (gx gy : Int) :
    (GridObstacleMap.new n).get_stub_proximity_cost gx gy = 0 := rfl

/-! ## C1 -/

/-- C1: `is_blocked` obeys the layered precedence: an out-of-range layer is
blocked; a hard-blocked cell is free exactly when it is in that layer's
`source_target_cells` endpoint-override set (BGA allowed-cells never
override a hard block); a cell that is not hard-blocked but lies in some BGA
zone is free exactly when it is in `allowed_cells`; otherwise it is free. -/
theorem C1_is_blocked_layered_precedence (m : GridObstacleMap) (gx gy : Int) (layer : Nat) :
    (m.num_layers ≤ layer → m.is_blocked gx gy layer = true) ∧
    (layer < m.num_layers →
      (m.blocked_cells.getD layer []).contains (pack_xy gx gy) = true →
      m.is_blocked gx gy layer
        = !(m.source_target_cells.getD layer []).contains (pack_xy gx gy)) ∧
    (layer < m.num_layers →
      (m.blocked_cells.getD layer []).contains (pack_xy gx gy) = false →
      m.in_bga_zone gx gy = true →
      m.is_blocked gx gy layer = !m.allowed_cells.contains (pack_xy gx gy)) ∧
    (layer < m.num_layers →
      (m.blocked_cells.getD layer []).contains (pack_xy gx gy) = false →
      m.in_bga_zone gx gy = false →
      m.is_blocked gx gy layer = false) := by
  refine ⟨?_, ?_, ?_, ?_⟩
  · intro h
    simp [GridObstacleMap.is_blocked, h]
  · intro h1 h2
    simp only [GridObstacleMap.is_blocked]
    rw [if_neg (by omega), if_pos h2]
    cases hstc : (m.source_target_cells.getD layer []).contains (pack_xy gx gy) <;>
      simp [hstc]
  · intro h1 h2 h3
    simp only [GridObstacleMap.is_blocked]
    rw [if_neg (by omega), if_neg (by rw [h2]; simp), if_pos h3]
    cases hac : m.allowed_cells.contains (pack_xy gx gy) <;> simp [hac]
  · intro h1 h2 h3
    simp only [GridObstacleMap.is_blocked]
    rw [if_neg (by omega), if_neg (by rw [h2]; simp), if_neg (by rw [h3]; simp)]

/-- C1 witness: a cell that is both hard-blocked and endpoint-overridden on
layer 0 of a 1-layer map is not blocked. -/
theorem C1_witness :
    GridObstacleMap.is_blocked
      ⟨[[pack_xy 2 3]], [], [], 1, [], [], [[pack_xy 2 3]]⟩ 2 3 0 = false := by
  have h := (C1_is_blocked_layered_precedence
    ⟨[[pack_xy 2 3]], [], [], 1, [], [], [[pack_xy 2 3]]⟩ 2 3 0).2.1
    (by decide) (by decide)
  rw [h]
  decide

/-! ## C3 -/

/-- C3 counterexample: per the spec's direction encoding NE = (1, -1), and
the claim says moving NE tries orientations 3, 0, 1; the code tries 2, 0, 1
for that direction. -/
theorem C3_counterexample_NE :
    DiffPairRouter.get_valid_orientations 1 (-1) 0 ≠ [3, 0, 1] := by decide

/-- C3 (amended): the candidate-orientation table the code implements, with
the spec's direction encoding (N = (0,-1), NE = (1,-1), NW = (-1,-1)):
E/W try 0,2,3; N/S try 1,2,3; NE/SW try 2,0,1; NW/SE try 3,0,1 — i.e. the
two diagonal rows are swapped relative to the claim. -/
theorem C3_orientation_table (o : Nat) :
    DiffPairRouter.get_valid_orientations 1 0 o = [0, 2, 3] ∧
    DiffPairRouter.get_valid_orientations (-1) 0 o = [0, 2, 3] ∧
    DiffPairRouter.get_valid_orientations 0 (-1) o = [1, 2, 3] ∧
    DiffPairRouter.get_valid_orientations 0 1 o = [1, 2, 3] ∧
    DiffPairRouter.get_valid_orientations 1 (-1) o = [2, 0, 1] ∧
    DiffPairRouter.get_valid_orientations (-1) 1 o = [2, 0, 1] ∧
    DiffPairRouter.get_valid_orientations (-1) (-1) o = [3, 0, 1] ∧
    DiffPairRouter.get_valid_orientations 1 1 o = [3, 0, 1] :=
  ⟨rfl, rfl, rfl, rfl, rfl, rfl, rfl, rfl⟩

/-! ## C5 -/

/-- C5: unpacking a packed cell key with the reconstruct_path steps yields
the original cell for all gx, gy in the 20-bit signed range and layer below
256, including negative coordinates. -/
theorem C5_cell_key_roundtrip (gx gy : Int) (layer : Nat)
    (hx1 : -524288 ≤ gx) (hx2 : gx ≤ 524287)
    (hy1 : -524288 ≤ gy) (hy2 : gy ≤ 524287) (hl : layer < 256) :
    unpackCell (GridState.as_key ⟨gx, gy, layer⟩) = (gx, gy, layer) :=
  unpack_as_key gx gy layer hx1 hx2 hy1 hy2 hl

/-- C5 witness: the round-trip at the extreme corners of the supported
range. -/
theorem C5_witness :
    unpackCell (GridState.as_key ⟨-524288, 524287, 255⟩) = (-524288, 524287, 255) :=
  C5_cell_key_roundtrip (-524288) 524287 255 (by decide) (by decide) (by decide)
    (by decide) (by decide)

/-! ## C7 -/

/-- C7 counterexample: with negative costs the result is not `max x y` — two
sets with costs -5 then -3 read back 0, not -3 (the map never stores a
non-positive cost because `existing` defaults to 0). -/
theorem C7_counterexample_negative :
    ¬ ((((GridObstacleMap.new 1).set_stub_proximity 0 0 (-5)).set_stub_proximity
        0 0 (-3)).get_stub_proximity_cost 0 0 = max (-5 : Int) (-3)) := by decide

/-- C7 (amended): on a fresh map, two `set_stub_proximity` calls on the same
cell leave `max (max x y) 0` — the claimed `max x y` clamped at 0, which
coincides with the claim whenever `max x y ≥ 0`; and setting a cost at most
the stored one is a no-op on the whole map. -/
theorem C7_stub_proximity_clamped_max (n : Nat) (gx gy x y : Int) :
    ((((GridObstacleMap.new n).set_stub_proximity gx gy x).set_stub_proximity
        gx gy y).get_stub_proximity_cost gx gy = max (max x y) 0) ∧
    (∀ (m : GridObstacleMap) (c : Int),
      c ≤ m.get_stub_proximity_cost gx gy → m.set_stub_proximity gx gy c = m) := by
  constructor
  · rw [get_set_stub, get_set_stub, get_stub_new]
    omega
  · intro m c h
    simp only [GridObstacleMap.get_stub_proximity_cost] at h
    simp only [GridObstacleMap.set_stub_proximity]
    rw [if_neg (by omega)]

/-- C7 witness: max semantics at 5 then 3, and a no-op low update on a fresh
map. -/
theorem C7_witness :
    ((((GridObstacleMap.new 1).set_stub_proximity 0 0 5).set_stub_proximity
        0 0 3).get_stub_proximity_cost 0 0 = max (max 5 3) 0) ∧
    (GridObstacleMap.new 1).set_stub_proximity 0 0 (-2) = GridObstacleMap.new 1 :=
  ⟨(C7_stub_proximity_clamped_max 1 0 0 5 3).1,
   (C7_stub_proximity_clamped_max 1 0 0 0 0).2 (GridObstacleMap.new 1) (-2) (by decide)⟩

/-! ## C8 -/

/-- Every cost stored in the proximity map of a reachable obstacle map is
non-negative (`set_stub_proximity` only stores costs strictly above the
current non-negative reading). -/
theorem stub_nonneg_of_reachable : ∀ {m : GridObstacleMap}, Reachable m →
    ∀ p ∈ m.stub_proximity, 0 ≤ p.2 := by
  intro m h
  induction h with
  | new n => simp [GridObstacleMap.new]
  | @add_blocked_cell m gx gy layer _ ih =>
    intro p hp
    by_cases hl : layer < m.num_layers
    · simp only [GridObstacleMap.add_blocked_cell, if_pos hl] at hp
      exact ih p hp
    · simp only [GridObstacleMap.add_blocked_cell, if_neg hl] at hp
      exact ih p hp
  | add_blocked_via gx gy _ ih =>
    intro p hp
    simp only [GridObstacleMap.add_blocked_via] at hp
    exact ih p hp
  | set_bga_zone a b c d _ ih =>
    intro p hp
    simp only [GridObstacleMap.set_bga_zone] at hp
    exact ih p hp
  | add_allowed_cell gx gy _ ih =>
    intro p hp
    simp only [GridObstacleMap.add_allowed_cell] at hp
    exact ih p hp
  | @add_source_target_cell m gx gy layer _ ih =>
    intro p hp
    by_cases hl : layer < m.num_layers
    · simp only [GridObstacleMap.add_source_target_cell, if_pos hl] at hp
      exact ih p hp
    · simp only [GridObstacleMap.add_source_target_cell, if_neg hl] at hp
      exact ih p hp
  | @set_stub_proximity m gx gy cost _ ih =>
    intro p hp
    simp only [GridObstacleMap.set_stub_proximity] at hp
    have hex : 0 ≤ (m.stub_proximity.lookup (pack_xy gx gy)).getD 0 := by
      rcases hlk : m.stub_proximity.lookup (pack_xy gx gy) with _ | v
      · simp
      · simpa using ih _ (lookup_mem _ _ _ hlk)
    by_cases hc : (m.stub_proximity.lookup (pack_xy gx gy)).getD 0 < cost
    · rw [if_pos hc] at hp
      rcases List.mem_cons.mp hp with hp | hp
      · subst hp
        simpa using le_of_lt (lt_of_le_of_lt hex hc)
      · exact ih p hp
    · rw [if_neg hc] at hp
      exact ih p hp
  | clear_stub_proximity _ _ =>
    intro p hp
    simp [GridObstacleMap.clear_stub_proximity] at hp
  | clear_allowed_cells _ ih =>
    intro p hp
    simp only [GridObstacleMap.clear_allowed_cells] at hp
    exact ih p hp
  | clear_source_target_cells _ ih =>
    intro p hp
    simp only [GridObstacleMap.clear_source_target_cells] at hp
    exact ih p hp

/-- C8: on every obstacle map reachable from `new` through the public
mutation operations, `get_stub_proximity_cost` is non-negative everywhere. -/
theorem C8_stub_proximity_nonneg {m : GridObstacleMap} (h : Reachable m) (gx gy : Int) :
    0 ≤ m.get_stub_proximity_cost gx gy := by
  simp only [GridObstacleMap.get_stub_proximity_cost]
  rcases hlk : m.stub_proximity.lookup (pack_xy gx gy) with _ | v
  · simp
  · simpa using stub_nonneg_of_reachable h _ (lookup_mem _ _ _ hlk)

/-- C8 witness: a reachable map built with a set and a clear still reads a
non-negative cost. -/
theorem C8_witness :
    0 ≤ ((((GridObstacleMap.new 2).set_stub_proximity 1 1 7).clear_stub_proximity
      ).set_stub_proximity 2 2 (-9)).get_stub_proximity_cost 1 1 :=
  C8_stub_proximity_nonneg
    (Reachable.set_stub_proximity 2 2 (-9)
      (Reachable.clear_stub_proximity
        (Reachable.set_stub_proximity 1 1 7 (Reachable.new 2)))) 1 1

/-! ## C9 -/

/-- C9: `route_diff_pair` with an empty sources list or an empty targets
list returns `(none, none, 0)` immediately, for every obstacle map, any
content of the other list, and every iteration budget. -/
theorem C9_empty_endpoints (r : DiffPairRouter) (obstacles : GridObstacleMap)
    (sources targets : List (Int × Int × Int × Int × Nat)) (max_iterations : Nat)
    (h : sources = [] ∨ targets = []) :
    r.route_diff_pair obstacles sources targets max_iterations = (none, none, 0) := by
  rcases h with h | h <;> subst h <;>
    simp [DiffPairRouter.route_diff_pair]

/-- C9 witness: empty sources with a non-empty target list. -/
theorem C9_witness :
    DiffPairRouter.route_diff_pair ⟨5000, fun x => x, 2⟩ (GridObstacleMap.new 2)
      [] [(0, 2, 0, -2, 0)] 10 = (none, none, 0) :=
  C9_empty_endpoints ⟨5000, fun x => x, 2⟩ (GridObstacleMap.new 2)
    [] [(0, 2, 0, -2, 0)] 10 (Or.inl rfl)

/-! ## C10 -/

/-- C10: when the single source also appears in the targets list and at
least one iteration is allowed, `route_multi` pops the source, finds it in
the target set before any expansion, and returns the one-cell path after
exactly one iteration — for every obstacle map, in particular when
`is_blocked` is true at the source (sources are enqueued without a blocking
check).  The coordinate bounds are the packing-range contract of the spec. -/
theorem C10_source_in_targets (v : Int) (hmul : Int → Int) (O : GridObstacleMap)
    (s : GridState) (targets : List GridState) (max_iterations : Nat)
    (hmem : s ∈ targets) (hmax : 1 ≤ max_iterations)
    (hx1 : -524288 ≤ s.gx) (hx2 : s.gx ≤ 524287)
    (hy1 : -524288 ≤ s.gy) (hy2 : s.gy ≤ 524287) (hl : s.layer < 256) :
    GridRouter.route_multi ⟨v, hmul⟩ O [s] targets max_iterations
      = (some [(s.gx, s.gy, s.layer)], 1) := by
  obtain ⟨gx, gy, layer⟩ := s
  have htg : (targets.map GridState.as_key).contains
      (GridState.as_key ⟨gx, gy, layer⟩) = true := by
    have hm : GridState.as_key ⟨gx, gy, layer⟩ ∈ targets.map GridState.as_key :=
      List.mem_map_of_mem _ hmem
    simpa [List.contains, List.elem_eq_mem] using hm
  simp only [GridRouter.route_multi, init_sources, emptySearch, List.foldl]
  rw [routeLoop]
  simp only [popMin]
  rw [if_neg (by omega : ¬ max_iterations ≤ 0)]
  simp [htg, reconstruct_path, parentChain, List.lookup,
    unpack_as_key gx gy layer hx1 hx2 hy1 hy2 hl]
  intro hcon
  exact absurd rfl (hcon _ hmem)

/-- C10 witness: a one-layer map whose only cell (0,0,0) is hard-blocked,
used as both the single source and the single target: the route is the
one-cell path after one iteration even though the cell is blocked. -/
theorem C10_witness :
    GridRouter.route_multi ⟨0, fun x => x⟩
        ((GridObstacleMap.new 1).add_blocked_cell 0 0 0)
        [⟨0, 0, 0⟩] [⟨0, 0, 0⟩] 1 = (some [(0, 0, 0)], 1) ∧
    ((GridObstacleMap.new 1).add_blocked_cell 0 0 0).is_blocked 0 0 0 = true :=
  ⟨C10_source_in_targets 0 (fun x => x) ((GridObstacleMap.new 1).add_blocked_cell 0 0 0)
      ⟨0, 0, 0⟩ [⟨0, 0, 0⟩] 1 (List.mem_singleton.mpr rfl) (by decide)
      (by decide) (by decide) (by decide) (by decide) (by decide),
   by decide⟩

/-- A successful `routeLoop` run is insensitive to extra fuel. -/
theorem routeLoop_fuel_mono (v : Int) (hmul : Int → Int) (O : GridObstacleMap)
    (tset : List Nat) (ts : List GridState) (maxI : Nat) :
    ∀ (fuel fuel2 : Nat) (st : SearchSt) (p : List (Int × Int × Nat)) (k : Nat),
      fuel ≤ fuel2 →
      routeLoop v hmul O tset ts maxI fuel st = (some p, k) →
      routeLoop v hmul O tset ts maxI fuel2 st = (some p, k) := by
  intro fuel
  induction fuel with
  | zero =>
    intro fuel2 st p k hle h
    simp [routeLoop] at h
  | succ fuel ih =>
    intro fuel2 st p k hle h
    rcases fuel2 with _ | fuel2
    · omega
    rw [routeLoop] at h
    rw [routeLoop]
    rcases hpop : popMin st.open_set with _ | ⟨e, rest⟩
    · rw [hpop] at h
      exact h
    · rw [hpop] at h
      dsimp only at h ⊢
      by_cases hm : maxI ≤ st.iterations
      · rw [if_pos hm] at h ⊢
        exact h
      · rw [if_neg hm] at h ⊢
        by_cases hcl : (st.closed.contains e.state.as_key) = true
        · rw [if_pos hcl] at h ⊢
          exact ih fuel2 _ p k (by omega) h
        · rw [if_neg hcl] at h ⊢
          by_cases htg : (tset.contains e.state.as_key) = true
          · rw [if_pos htg] at h ⊢
            exact h
          · rw [if_neg htg] at h ⊢
            exact ih fuel2 _ p k (by omega) h

/-- A successful `routeLoop` run also succeeds identically under any larger
iteration budget: the budget check never fired on the successful run. -/
theorem routeLoop_max_mono (v : Int) (hmul : Int → Int) (O : GridObstacleMap)
    (tset : List Nat) (ts : List GridState) :
    ∀ (fuel : Nat) (st : SearchSt) (p : List (Int × Int × Nat)) (k : Nat)
      (m1 m2 : Nat), m1 ≤ m2 →
      routeLoop v hmul O tset ts m1 fuel st = (some p, k) →
      routeLoop v hmul O tset ts m2 fuel st = (some p, k) := by
  intro fuel
  induction fuel with
  | zero =>
    intro st p k m1 m2 hle h
    simp [routeLoop] at h
  | succ fuel ih =>
    intro st p k m1 m2 hle h
    rw [routeLoop] at h
    rw [routeLoop]
    rcases hpop : popMin st.open_set with _ | ⟨e, rest⟩
    · rw [hpop] at h
      exact h
    · rw [hpop] at h
      dsimp only at h ⊢
      by_cases hm : m1 ≤ st.iterations
      · rw [if_pos hm] at h
        exact absurd h (by simp)
      · rw [if_neg hm] at h
        rw [if_neg (by omega : ¬ m2 ≤ st.iterations)]
        by_cases hcl : (st.closed.contains e.state.as_key) = true
        · rw [if_pos hcl] at h ⊢
          exact ih _ p k m1 m2 hle h
        · rw [if_neg hcl] at h ⊢
          by_cases htg : (tset.contains e.state.as_key) = true
          · rw [if_pos htg] at h ⊢
            exact h
          · rw [if_neg htg] at h ⊢
            exact ih _ p k m1 m2 hle h

/-! ## C6 -/

/-- C6: on an empty two-layer board with via_cost 5000 and h_weight 1
(identity `hmul`, exact here since every heuristic value stays far below
2^24), routing from (0,0,0) to (10,0,0) with any budget of at least 1000
returns the 11-cell all-East path on layer 0 after 11 iterations; the
accumulated g-cost of that path is 10 * ORTHO_COST = 10000, which equals the
octile heuristic at the source. -/
theorem C6_straight_east_route (max_iterations : Nat) (hmax : 1000 ≤ max_iterations) :
    GridRouter.route_multi ⟨5000, fun x => x⟩ (GridObstacleMap.new 2)
        [⟨0, 0, 0⟩] [⟨10, 0, 0⟩] max_iterations
      = (some [(0, 0, 0), (1, 0, 0), (2, 0, 0), (3, 0, 0), (4, 0, 0), (5, 0, 0),
          (6, 0, 0), (7, 0, 0), (8, 0, 0), (9, 0, 0), (10, 0, 0)], 11) ∧
    pathGCost (GridObstacleMap.new 2) 5000
        [(0, 0, 0), (1, 0, 0), (2, 0, 0), (3, 0, 0), (4, 0, 0), (5, 0, 0),
         (6, 0, 0), (7, 0, 0), (8, 0, 0), (9, 0, 0), (10, 0, 0)]
      = 10 * ORTHO_COST ∧
    heuristic_to_targets 5000 (fun x => x) ⟨0, 0, 0⟩ [⟨10, 0, 0⟩] = 10 * ORTHO_COST := by
  refine ⟨?_, by decide, by decide⟩
  have base : GridRouter.route_multi ⟨5000, fun x => x⟩ (GridObstacleMap.new 2)
      [⟨0, 0, 0⟩] [⟨10, 0, 0⟩] 1000
      = (some [(0, 0, 0), (1, 0, 0), (2, 0, 0), (3, 0, 0), (4, 0, 0), (5, 0, 0),
          (6, 0, 0), (7, 0, 0), (8, 0, 0), (9, 0, 0), (10, 0, 0)], 11) := by decide
  simp only [GridRouter.route_multi] at base ⊢
  exact routeLoop_fuel_mono _ _ _ _ _ _ 1001 (max_iterations + 1) _ _ _ (by omega)
    (routeLoop_max_mono _ _ _ _ _ 1001 _ _ _ 1000 max_iterations hmax base)

/-- C6 witness: the route at the minimal allowed budget. -/
theorem C6_witness :
    GridRouter.route_multi ⟨5000, fun x => x⟩ (GridObstacleMap.new 2)
        [⟨0, 0, 0⟩] [⟨10, 0, 0⟩] 1000
      = (some [(0, 0, 0), (1, 0, 0), (2, 0, 0), (3, 0, 0), (4, 0, 0), (5, 0, 0),
          (6, 0, 0), (7, 0, 0), (8, 0, 0), (9, 0, 0), (10, 0, 0)], 11) :=
  (C6_straight_east_route 1000 (by decide)).1

/-! ## C2 -/

/-- Folding a step that never touches `iterations` leaves it unchanged. -/
theorem foldl_iterations_invariant {β : Type} (f : SearchSt → β → SearchSt)
    (hf : ∀ st b, (f st b).iterations = st.iterations) :
    ∀ (l : List β) (st : SearchSt), (l.foldl f st).iterations = st.iterations := by
  intro l
  induction l with
  | nil => intro st; rfl
  | cons b t ih => intro st; rw [List.foldl_cons, ih, hf]

/-- Planar expansion does not change the iteration counter. -/
theorem expand_planar_iterations (v : Int) (hmul : Int → Int) (O : GridObstacleMap)
    (ts : List GridState) (cur : GridState) (g : Int) (st : SearchSt) :
    (expand_planar v hmul O ts cur g st).iterations = st.iterations := by
  refine foldl_iterations_invariant _ ?_ DIRECTIONS st
  intro st0 d
  dsimp only
  split_ifs <;> rfl

/-- Via expansion does not change the iteration counter. -/
theorem expand_vias_iterations (v : Int) (hmul : Int → Int) (O : GridObstacleMap)
    (ts : List GridState) (cur : GridState) (g : Int) (st : SearchSt) :
    (expand_vias v hmul O ts cur g st).iterations = st.iterations := by
  rw [expand_vias]
  split_ifs
  · rfl
  · refine foldl_iterations_invariant _ ?_ _ st
    intro st0 layer
    dsimp only
    split_ifs <;> rfl

/-- A done router is a fixed point of the driver. -/
theorem drive_of_done {O : GridObstacleMap} {r : VisualRouter}
    (h : r.is_done = true) : ∀ fuel, driveToCompletion O fuel r = r := by
  intro fuel
  cases fuel with
  | zero => rfl
  | succ f => simp [driveToCompletion, h]

/-- A step taken while the search is not done increments the iteration
counter and keeps the budget. -/
theorem stepOnce_progress (O : GridObstacleMap) (r : VisualRouter)
    (hd : r.is_done = false) :
    (r.stepOnce O).search.iterations = r.search.iterations + 1 ∧
    (r.stepOnce O).max_iterations = r.max_iterations := by
  simp only [VisualRouter.stepOnce, hd, Bool.false_eq_true, if_false]
  rcases hpop : popMin r.search.open_set with _ | ⟨e, rest⟩
  · exact ⟨rfl, rfl⟩
  · dsimp only
    split_ifs
    · exact ⟨rfl, rfl⟩
    · exact ⟨rfl, rfl⟩
    · constructor
      · rw [expand_vias_iterations, expand_planar_iterations]
      · rfl

/-- With `max_iterations + 1` units of fuel the driver always ends in a
done state. -/
theorem drive_reaches_done (O : GridObstacleMap) :
    ∀ (fuel : Nat) (r : VisualRouter),
      r.max_iterations ≤ fuel + r.search.iterations →
      (driveToCompletion O fuel r).is_done = true := by
  intro fuel
  induction fuel with
  | zero =>
    intro r h
    simp only [driveToCompletion, VisualRouter.is_done]
    have : r.max_iterations ≤ r.search.iterations := by omega
    simp [this]
  | succ fuel ih =>
    intro r h
    rw [driveToCompletion]
    by_cases hd : r.is_done = true
    · rw [if_pos hd]
      exact hd
    · rw [if_neg hd]
      have hd2 : r.is_done = false := by simpa using hd
      obtain ⟨h1, h2⟩ := stepOnce_progress O r hd2
      have hstep : VisualRouter.step O 1 r = r.stepOnce O := rfl
      rw [hstep]
      apply ih
      omega

/-- Simulation: on a visual router that has not yet found a path, running
the batch loop on its search state computes exactly the final path and
iteration count that driving the visual router yields, for any common amount
of fuel. -/
theorem routeLoop_eq_drive (O : GridObstacleMap) :
    ∀ (fuel : Nat) (r : VisualRouter),
      r.found = false → r.final_path = none →
      routeLoop r.via_cost r.hmul O r.target_set r.target_states r.max_iterations
          fuel r.search
        = ((driveToCompletion O fuel r).final_path,
           (driveToCompletion O fuel r).search.iterations) := by
  intro fuel
  induction fuel with
  | zero =>
    intro r hf hp
    simp [routeLoop, driveToCompletion, hp]
  | succ fuel ih =>
    intro r hf hp
    rw [routeLoop, driveToCompletion]
    rcases hpop : popMin r.search.open_set with _ | ⟨e, rest⟩
    · have hempty : r.search.open_set = [] := popMin_eq_none.mp hpop
      have hdone : r.is_done = true := by simp [VisualRouter.is_done, hempty]
      rw [if_pos hdone]
      simp [hp]
    · dsimp only
      by_cases hm : r.max_iterations ≤ r.search.iterations
      · have hdone : r.is_done = true := by simp [VisualRouter.is_done, hm]
        rw [if_pos hm, if_pos hdone]
        simp [hp]
      · have hne : r.search.open_set.isEmpty = false := by
          cases hl : r.search.open_set with
          | nil => rw [hl] at hpop; simp [popMin] at hpop
          | cons a t => simp [hl]
        have hdone : r.is_done = false := by
          simp [VisualRouter.is_done, hf, hm, hne]
        rw [if_neg hm, if_neg (by simp [hdone] : ¬ r.is_done = true)]
        have hstep : VisualRouter.step O 1 r = r.stepOnce O := rfl
        rw [hstep]
        simp only [VisualRouter.stepOnce, hdone, Bool.false_eq_true, if_false]
        rw [hpop]
        dsimp only
        by_cases hcl : (r.search.closed.contains e.state.as_key) = true
        · rw [if_pos hcl, if_pos hcl]
          exact ih
            { r with search :=
                { open_set := rest, g_costs := r.search.g_costs,
                  parents := r.search.parents, closed := r.search.closed,
                  counter := r.search.counter,
                  iterations := r.search.iterations + 1 } } hf hp
        · rw [if_neg hcl, if_neg hcl]
          by_cases htg : (r.target_set.contains e.state.as_key) = true
          · rw [if_pos htg, if_pos htg]
            have hdone2 : (VisualRouter.is_done
                { r with
                  search := { r.search with
                    open_set := rest, iterations := r.search.iterations + 1,
                    closed := e.state.as_key :: r.search.closed },
                  found := true,
                  final_path := some (reconstruct_path r.search.parents e.state.as_key) })
                = true := by
              simp [VisualRouter.is_done]
            rw [drive_of_done hdone2]
          · rw [if_neg htg, if_neg htg]
            exact ih
              ⟨r.via_cost, r.hmul,
               expand_vias r.via_cost r.hmul O r.target_states e.state e.g_score
                 (expand_planar r.via_cost r.hmul O r.target_states e.state e.g_score
                   ⟨rest, r.search.g_costs, r.search.parents,
                    e.state.as_key :: r.search.closed, r.search.counter,
                    r.search.iterations + 1⟩),
               r.max_iterations, r.target_set, r.target_states, r.found, r.final_path⟩
              hf hp

/-- C2: for identical inputs and construction parameters, initialising a
`VisualRouter` and stepping it until `is_done` yields through `get_path`
exactly the final path option `route_multi` returns, and `get_iterations`
equals `route_multi`'s iteration count; `max_iterations + 1` single-step
calls always suffice to reach `is_done`. -/
theorem C2_visual_equals_batch (v : Int) (hmul : Int → Int) (O : GridObstacleMap)
    (sources targets : List GridState) (max_iterations : Nat) :
    (driveToCompletion O (max_iterations + 1)
        ((VisualRouter.new v hmul).init sources targets max_iterations)).is_done = true ∧
    (driveToCompletion O (max_iterations + 1)
        ((VisualRouter.new v hmul).init sources targets max_iterations)).get_path
      = (GridRouter.route_multi ⟨v, hmul⟩ O sources targets max_iterations).1 ∧
    (driveToCompletion O (max_iterations + 1)
        ((VisualRouter.new v hmul).init sources targets max_iterations)).get_iterations
      = (GridRouter.route_multi ⟨v, hmul⟩ O sources targets max_iterations).2 := by
  have hsim := routeLoop_eq_drive O (max_iterations + 1)
    ((VisualRouter.new v hmul).init sources targets max_iterations) rfl rfl
  refine ⟨?_, ?_, ?_⟩
  · apply drive_reaches_done
    simp only [VisualRouter.init, VisualRouter.new]
    omega
  · simp only [GridRouter.route_multi, VisualRouter.get_path]
    exact (congrArg Prod.fst hsim).symm
  · simp only [GridRouter.route_multi, VisualRouter.get_iterations]
    exact (congrArg Prod.snd hsim).symm

/-! ## C4 -/

/-- C4 counterexample: sources are pushed into the open set without any
blocking check, so a returned path can start at a blocked cell — here the
single source, also the target, is hard-blocked yet is the whole path. -/
theorem C4_counterexample_blocked_source :
    GridRouter.route_multi ⟨0, fun x => x⟩
        ((GridObstacleMap.new 1).add_blocked_cell 0 0 0)
        [⟨0, 0, 0⟩] [⟨0, 0, 0⟩] 5 = (some [(0, 0, 0)], 1) ∧
    ((GridObstacleMap.new 1).add_blocked_cell 0 0 0).is_blocked 0 0 0 = true :=
  ⟨by decide, by decide⟩

/-- Folding preserves a predicate when every step taken on a list member
does. -/
theorem foldl_preserve_mem {α β : Type} (P : α → Prop) (f : α → β → α) :
    ∀ (l : List β), (∀ b ∈ l, ∀ a, P a → P (f a b)) → ∀ a, P a → P (l.foldl f a) := by
  intro l
  induction l with
  | nil => intro _ a ha; exact ha
  | cons b t ih =>
    intro h a ha
    rw [List.foldl_cons]
    exact ih (fun x hx => h x (List.mem_cons_of_mem _ hx)) _ (h b (List.mem_cons_self _ _) a ha)

/-- `InvOpen` is monotone in the bound. -/
theorem InvOpen_mono {n n2 : Nat} {l : List OpenEntry} (h : InvOpen n l) (hle : n ≤ n2) :
    InvOpen n2 l := by
  intro e he
  obtain ⟨h1, h2, h3⟩ := h e he
  exact ⟨h1, by omega, by omega⟩

/-- Planar expansion preserves the open-set bound and the parent-map
invariant: every pushed neighbour passed the `is_blocked` guard and moved at
most one cell from the in-range current state. -/
theorem expand_planar_inv (v : Int) (hmul : Int → Int) (O : GridObstacleMap)
    (ts : List GridState) (cur : GridState) (g : Int) (n : Nat)
    (hn : n ≤ 524287) (hcl : cur.layer < 256)
    (hcx : cur.gx.natAbs < n) (hcy : cur.gy.natAbs < n)
    (st : SearchSt) (hop : InvOpen n st.open_set) (hpar : InvPar O st.parents) :
    InvOpen n (expand_planar v hmul O ts cur g st).open_set ∧
    InvPar O (expand_planar v hmul O ts cur g st).parents := by
  refine foldl_preserve_mem
    (fun st0 => InvOpen n st0.open_set ∧ InvPar O st0.parents) _ DIRECTIONS
    ?_ st ⟨hop, hpar⟩
  intro d hd st0 hP
  obtain ⟨h1, h2⟩ := hP
  have hdx : d.1.natAbs ≤ 1 ∧ d.2.natAbs ≤ 1 := by
    have : d = (1, 0) ∨ d = (1, -1) ∨ d = (0, -1) ∨ d = (-1, -1) ∨ d = (-1, 0) ∨
        d = (-1, 1) ∨ d = (0, 1) ∨ d = (1, 1) := by
      simpa [DIRECTIONS] using hd
    rcases this with h | h | h | h | h | h | h | h <;> subst h <;> exact ⟨by decide, by decide⟩
  dsimp only
  split_ifs with hb hclosed hmv hg hg2 <;>
    first
      | exact ⟨h1, h2⟩
      | (constructor
         · intro e he
           rcases List.mem_cons.mp he with he | he
           · subst he
             refine ⟨hcl, ?_, ?_⟩ <;> dsimp only <;> omega
           · exact h1 e he
         · intro pr hpr
           rcases List.mem_cons.mp hpr with hpr | hpr
           · subst hpr
             refine ⟨⟨cur.gx + d.1, cur.gy + d.2, cur.layer⟩, rfl, ?_, ?_, hcl, ?_⟩
             · dsimp only; omega
             · dsimp only; omega
             · simpa using hb
           · exact h2 pr hpr)

/-- Via expansion preserves the open-set bound and the parent-map invariant:
destination layers come from `0..num_layers % 256` and every destination
passed the `is_blocked` guard at the unchanged xy position. -/
theorem expand_vias_inv (v : Int) (hmul : Int → Int) (O : GridObstacleMap)
    (ts : List GridState) (cur : GridState) (g : Int) (n : Nat)
    (hn : n ≤ 524287)
    (hcx : cur.gx.natAbs < n) (hcy : cur.gy.natAbs < n)
    (st : SearchSt) (hop : InvOpen n st.open_set) (hpar : InvPar O st.parents) :
    InvOpen n (expand_vias v hmul O ts cur g st).open_set ∧
    InvPar O (expand_vias v hmul O ts cur g st).parents := by
  rw [expand_vias]
  split_ifs with hvb
  · exact ⟨hop, hpar⟩
  · refine foldl_preserve_mem
      (fun st0 => InvOpen n st0.open_set ∧ InvPar O st0.parents) _ _
      ?_ st ⟨hop, hpar⟩
    intro layer hlay st0 hP
    obtain ⟨h1, h2⟩ := hP
    have hl256 : layer < 256 := by
      have := List.mem_range.mp hlay
      omega
    dsimp only
    split_ifs with hsame hb hclosed hg
    · exact ⟨h1, h2⟩
    · exact ⟨h1, h2⟩
    · exact ⟨h1, h2⟩
    · constructor
      · intro e he
        rcases List.mem_cons.mp he with he | he
        · subst he
          exact ⟨hl256, by dsimp only; omega, by dsimp only; omega⟩
        · exact h1 e he
      · intro pr hpr
        rcases List.mem_cons.mp hpr with hpr | hpr
        · subst hpr
          refine ⟨⟨cur.gx, cur.gy, layer⟩, rfl, by dsimp only; omega,
            by dsimp only; omega, hl256, ?_⟩
          simpa using hb
        · exact h2 pr hpr
    · exact ⟨h1, h2⟩

/-- The tail of a reversed list is the reversed `dropLast`. -/
theorem tail_reverse {α : Type} (l : List α) : l.reverse.tail = l.dropLast.reverse := by
  induction l using List.reverseRecOn with
  | nil => rfl
  | append_singleton xs x _ => simp

/-- Every cell of a parent chain except the last one (the chain's root)
unpacks a key of the parent map, hence an in-range unblocked state. -/
theorem parentChain_dropLast_unblocked (O : GridObstacleMap)
    (parents : List (Nat × Nat)) (hpar : InvPar O parents) :
    ∀ (fuel : Nat) (key : Nat),
      ∀ c ∈ (parentChain parents fuel key).dropLast,
        O.is_blocked c.1 c.2.1 c.2.2 = false := by
  intro fuel
  induction fuel with
  | zero => intro key c hc; simp [parentChain] at hc
  | succ fuel ih =>
    intro key c hc
    rw [parentChain] at hc
    rcases hlk : parents.lookup key with _ | pk
    · rw [hlk] at hc
      simp at hc
    · rw [hlk] at hc
      dsimp only at hc
      have hkey : ∀ d : Int × Int × Nat, d = unpackCell key →
          O.is_blocked d.1 d.2.1 d.2.2 = false := by
        intro d hd
        obtain ⟨s, hk, hx, hy, hl, hbl⟩ := hpar (key, pk) (lookup_mem _ _ _ hlk)
        obtain ⟨gx, gy, layer⟩ := s
        have hk2 : GridState.as_key ⟨gx, gy, layer⟩ = key := hk
        simp only at hx hy hl hbl
        have hun : unpackCell key = (gx, gy, layer) := by
          rw [← hk2]
          exact unpack_as_key gx gy layer (by omega) (by omega) (by omega) (by omega) hl
        rw [hd, hun]
        exact hbl
      rcases hch : parentChain parents fuel pk with _ | ⟨c2, t2⟩
      · rw [hch] at hc
        simp at hc
      · rw [hch] at hc
        rw [List.dropLast_cons₂] at hc
        rcases List.mem_cons.mp hc with hc | hc
        · exact hkey c hc
        · rw [← hch] at hc
          exact ih pk c hc

/-- Every cell after the first of a reconstructed path satisfies the
parent-map invariant's blocking guarantee. -/
theorem reconstruct_tail_unblocked (O : GridObstacleMap)
    (parents : List (Nat × Nat)) (hpar : InvPar O parents) (goal_key : Nat) :
    ∀ c ∈ (reconstruct_path parents goal_key).tail,
      O.is_blocked c.1 c.2.1 c.2.2 = false := by
  intro c hc
  rw [reconstruct_path, tail_reverse, List.mem_reverse] at hc
  exact parentChain_dropLast_unblocked O parents hpar _ goal_key c hc

/-- Main loop invariant: if the open set stays within `bound + iterations`
of the origin and the parent map only holds unblocked in-range states, every
cell after the first of a returned path is unblocked. -/
theorem routeLoop_path_unblocked (v : Int) (hmul : Int → Int) (O : GridObstacleMap)
    (tset : List Nat) (ts : List GridState) (maxI bound : Nat)
    (hbd : bound + maxI ≤ 524287) :
    ∀ (fuel : Nat) (st : SearchSt) (p : List (Int × Int × Nat)) (k : Nat),
      st.iterations ≤ maxI →
      InvOpen (bound + st.iterations) st.open_set →
      InvPar O st.parents →
      routeLoop v hmul O tset ts maxI fuel st = (some p, k) →
      ∀ c ∈ p.tail, O.is_blocked c.1 c.2.1 c.2.2 = false := by
  intro fuel
  induction fuel with
  | zero =>
    intro st p k _ _ _ h
    simp [routeLoop] at h
  | succ fuel ih =>
    intro st p k hit hop hpar h
    rw [routeLoop] at h
    rcases hpop : popMin st.open_set with _ | ⟨e, rest⟩
    · rw [hpop] at h
      exact absurd h (by simp)
    · rw [hpop] at h
      dsimp only at h
      by_cases hm : maxI ≤ st.iterations
      · rw [if_pos hm] at h
        exact absurd h (by simp)
      · rw [if_neg hm] at h
        obtain ⟨hemem, hrsub⟩ := popMin_mem hpop
        obtain ⟨hel, hex, hey⟩ := hop e hemem
        have hrest : InvOpen (bound + (st.iterations + 1)) rest := by
          intro x hx
          obtain ⟨a, b, c2⟩ := hop x (hrsub x hx)
          exact ⟨a, by omega, by omega⟩
        by_cases hcl : (st.closed.contains e.state.as_key) = true
        · rw [if_pos hcl] at h
          refine ih ⟨rest, st.g_costs, st.parents, st.closed, st.counter,
            st.iterations + 1⟩ p k ?_ ?_ hpar h
          · show st.iterations + 1 ≤ maxI
            omega
          · show InvOpen (bound + (st.iterations + 1)) rest
            exact hrest
        · rw [if_neg hcl] at h
          by_cases htg : (tset.contains e.state.as_key) = true
          · rw [if_pos htg] at h
            have hp2 : reconstruct_path st.parents e.state.as_key = p := by
              simpa using congrArg Prod.fst h
            intro c hc
            rw [← hp2] at hc
            exact reconstruct_tail_unblocked O st.parents hpar _ c hc
          · rw [if_neg htg] at h
            have hn : bound + (st.iterations + 1) ≤ 524287 := by omega
            obtain ⟨hop2, hpar2⟩ := expand_planar_inv v hmul O ts e.state e.g_score
              (bound + (st.iterations + 1)) hn hel (by omega) (by omega)
              ⟨rest, st.g_costs, st.parents, e.state.as_key :: st.closed,
               st.counter, st.iterations + 1⟩ hrest hpar
            obtain ⟨hop3, hpar3⟩ := expand_vias_inv v hmul O ts e.state e.g_score
              (bound + (st.iterations + 1)) hn (by omega) (by omega)
              _ hop2 hpar2
            refine ih _ p k ?_ ?_ hpar3 h
            · rw [expand_vias_iterations, expand_planar_iterations]
              show st.iterations + 1 ≤ maxI
              omega
            · rw [expand_vias_iterations, expand_planar_iterations]
              show InvOpen (bound + (st.iterations + 1)) _
              exact hop3

/-- Source initialisation on the empty search state yields an open set of
exactly the (bounded) sources, no parents, zero iterations. -/
theorem init_sources_inv (v : Int) (hmul : Int → Int) (ts : List GridState)
    (bound : Nat) (sources : List GridState)
    (hsrc : ∀ s ∈ sources, s.layer < 256 ∧ s.gx.natAbs ≤ bound ∧ s.gy.natAbs ≤ bound) :
    InvOpen bound (init_sources v hmul ts sources emptySearch).open_set ∧
    (init_sources v hmul ts sources emptySearch).parents = [] ∧
    (init_sources v hmul ts sources emptySearch).iterations = 0 := by
  rw [init_sources]
  refine foldl_preserve_mem
    (fun st0 => InvOpen bound st0.open_set ∧ st0.parents = [] ∧ st0.iterations = 0)
    _ sources ?_ emptySearch ⟨?_, rfl, rfl⟩
  · intro s hs st0 hP
    obtain ⟨h1, h2, h3⟩ := hP
    dsimp only
    refine ⟨?_, h2, h3⟩
    intro x hx
    rcases List.mem_cons.mp hx with hx | hx
    · subst hx
      exact hsrc s hs
    · exact h1 x hx
  · intro x hx
    simp [emptySearch] at hx

/-- C4 (amended): sources are enqueued without a blocking check, so the
first cell of a returned path (always a source) may be blocked; every later
cell went through the `is_blocked` guard.  Formally: when each source lies
within `bound` of the origin and `bound + max_iterations` stays inside the
20-bit packing range (the spec's coordinate contract — it keeps every state
the search can reach exactly representable in its key), every cell except
the first of a path returned by `route_multi` satisfies `is_blocked =
false`. -/
theorem C4_path_tail_unblocked (v : Int) (hmul : Int → Int) (O : GridObstacleMap)
    (sources targets : List GridState) (max_iterations bound : Nat)
    (p : List (Int × Int × Nat)) (k : Nat)
    (hbd : bound + max_iterations ≤ 524287)
    (hsrc : ∀ s ∈ sources, s.layer < 256 ∧ s.gx.natAbs ≤ bound ∧ s.gy.natAbs ≤ bound)
    (hroute : GridRouter.route_multi ⟨v, hmul⟩ O sources targets max_iterations
      = (some p, k)) :
    ∀ c ∈ p.tail, O.is_blocked c.1 c.2.1 c.2.2 = false := by
  simp only [GridRouter.route_multi] at hroute
  obtain ⟨hop, hpar0, hit0⟩ := init_sources_inv v hmul targets bound sources hsrc
  refine routeLoop_path_unblocked v hmul O (targets.map GridState.as_key) targets
    max_iterations bound hbd (max_iterations + 1) _ p k ?_ ?_ ?_ hroute
  · rw [hit0]
    omega
  · rw [hit0]
    exact InvOpen_mono hop (by omega)
  · rw [hpar0]
    intro pr hpr
    simp at hpr

/-- C4 witness: on an empty one-layer board the 4-cell route from (0,0,0)
to (3,0,0) has every cell after the first unblocked; in particular (1,0,0). -/
theorem C4_witness : (GridObstacleMap.new 1).is_blocked 1 0 0 = false :=
  C4_path_tail_unblocked 5000 (fun x => x) (GridObstacleMap.new 1)
    [⟨0, 0, 0⟩] [⟨3, 0, 0⟩] 100 0
    [(0, 0, 0), (1, 0, 0), (2, 0, 0), (3, 0, 0)] 4
    (by decide) (by decide) (by decide) (1, 0, 0) (by decide)
